import Mathlib

/-!
Shallow embedding of the bulk CSV content importer of
`src/src/components/CSVUploader.tsx` (the `parseCSVAndCreateContent`
variant, lines 287-497), together with a model of the remote store
(`quizzes`, `vocabulary`, `dialogues` tables; their schema, including the
`CHECK (difficulty_level BETWEEN 1 AND 5)` constraint on `vocabulary`,
comes from the SQL migrations in the repository).

Modelling conventions:
* JavaScript strings are Lean `String`s; `.trim()`, `.split(sep)`,
  `.replace(/"/g, '')` and `parseInt` are embedded below at the
  character-list level.
* The JS object used as a string-keyed map (`Record<string, any[]>`) is
  modelled as an insertion-ordered association list.
* The remote store is explicit state.  Each `insert`/`update` call may
  fail; failures are modelled by an oracle `ok : Nat → Bool` consulted at
  the index of the write operation (the code checks `if (!error)` and
  only then increments a counter).  A `select ... maybeSingle()` is
  modelled as a pure lookup (the code discards its error via
  destructuring).  The `vocabulary` insert additionally respects the
  table's CHECK constraint on `difficulty_level`.
* The thrown error of the two-line guard is modelled with `Except`.
-/

/-- Whitespace characters removed by the JS `String.prototype.trim`
(restricted to the ASCII whitespace actually relevant here). -/
def isJsWhitespace (c : Char) : Bool :=
  c = ' ' || c = '\t' || c = '\n' || c = '\r' || c = '\x0b' || c = '\x0c'

/-- Remove leading and trailing whitespace from a character list. -/
def trimChars (l : List Char) : List Char :=
  ((l.dropWhile isJsWhitespace).reverse.dropWhile isJsWhitespace).reverse

/-- Embedding of `s.trim()`. -/
def jsTrim (s : String) : String := String.mk (trimChars s.data)

/-- Split a character list at every occurrence of `sep`, keeping empty
pieces, as JS `String.prototype.split` does with a one-character
separator. -/
def jsSplitChars (sep : Char) : List Char → List (List Char)
  | [] => [[]]
  | c :: rest =>
    let r := jsSplitChars sep rest
    if c = sep then [] :: r
    else
      match r with
      | [] => [[c]]
      | h :: t => (c :: h) :: t

/-- Embedding of `s.split(sep)` for a one-character separator. -/
def jsSplit (s : String) (sep : Char) : List String :=
  (jsSplitChars sep s.data).map String.mk

/-- Embedding of `val.replace(/"/g, '')`: removes every double-quote
character, wherever it occurs in the string. -/
def removeQuotes (s : String) : String :=
  String.mk (s.data.filter (fun c => c ≠ '"'))

/-- Embedding of `val.replace(/"/g, '').trim()`, the per-cell
normalisation applied by every parser. -/
def parseCell (v : String) : String := jsTrim (removeQuotes v)

/-- Embedding of `lines[i].split(',').map(val => val.replace(/"/g, '').trim())`. -/
def splitCells (line : String) : List String :=
  (jsSplit line ',').map parseCell

/-- Value of a decimal digit character. -/
def digitVal (c : Char) : Option Nat :=
  if c.isDigit then some (c.toNat - 48) else none

/-- Value of a hexadecimal digit character. -/
def hexDigitVal (c : Char) : Option Nat :=
  if c.isDigit then some (c.toNat - 48)
  else if 'a' ≤ c ∧ c ≤ 'f' then some (c.toNat - 97 + 10)
  else if 'A' ≤ c ∧ c ≤ 'F' then some (c.toNat - 65 + 10)
  else none

/-- Longest prefix of digit values. -/
def takeDigits (dv : Char → Option Nat) : List Char → List Nat
  | [] => []
  | c :: rest =>
    match dv c with
    | some d => d :: takeDigits dv rest
    | none => []

/-- Embedding of JS `parseInt(s)` with no radix argument: skip leading
whitespace, optional sign, optional `0x`/`0X` hex prefix, then the
longest run of digits; `none` models `NaN`. -/
def jsParseInt (s : String) : Option Int :=
  let l := s.data.dropWhile isJsWhitespace
  let signRest : Int × List Char :=
    match l with
    | '-' :: rest => (-1, rest)
    | '+' :: rest => (1, rest)
    | _ => (1, l)
  let baseRest : Nat × List Char :=
    match signRest.2 with
    | '0' :: 'x' :: rest => (16, rest)
    | '0' :: 'X' :: rest => (16, rest)
    | _ => (10, signRest.2)
  let ds := takeDigits (if baseRest.1 = 16 then hexDigitVal else digitVal) baseRest.2
  if ds = [] then none
  else some (signRest.1 * Int.ofNat (ds.foldl (fun acc d => acc * baseRest.1 + d) 0))

/-- Embedding of `parseInt(values[3]) || 1`: `values[3]` may be absent
(`undefined`, which `parseInt` turns into `NaN`), and both `NaN` and `0`
are falsy, so they fall back to `1`. -/
def jsParseIntDefault1 (v : Option String) : Int :=
  match v with
  | none => 1
  | some s =>
    match jsParseInt s with
    | none => 1
    | some n => if n = 0 then 1 else n

/-- One quiz question object as pushed by `parseQuizCSV`. -/
structure Question where
  question : String
  question_gujarati : String
  options : List String
  correct_answer : String
  explanation : String
deriving DecidableEq

/-- One row of the remote `quizzes` table (the columns the importer
reads or writes; `id` models the generated primary key). -/
structure QuizRec where
  id : Nat
  title : String
  description : String
  quiz_type : String
  difficulty_level : Nat
  time_limit : Nat
  questions : List Question
  created_by : String
deriving DecidableEq

/-- The remote `quizzes` table together with the next fresh key. -/
structure QuizDB where
  recs : List QuizRec
  nextId : Nat
deriving DecidableEq

/-- Embedding of the lookup
`supabase.from('quizzes').select('id').eq('title', title).eq('created_by', user.id).maybeSingle()`. -/
def findQuiz (db : QuizDB) (t uid : String) : Option QuizRec :=
  db.recs.find? (fun r => r.title == t && r.created_by == uid)

/-- Append a value to the group of key `k`, creating the group at the end
if the key is new: the JS
`if (!groups[title]) groups[title] = []; groups[title].push(v)` idiom on
a plain object, which keeps string keys in insertion order. -/
def addToGroup {α : Type} : List (String × List α) → String → α → List (String × List α)
  | [], k, v => [(k, [v])]
  | p :: rest, k, v =>
    if p.1 = k then (p.1, p.2 ++ [v]) :: rest
    else p :: addToGroup rest k v

/-- Lookup of a group by key; the empty list stands for an absent key. -/
def groupLookup {α : Type} : List (String × List α) → String → List α
  | [], _ => []
  | p :: rest, t => if p.1 = t then p.2 else groupLookup rest t

/-- Cell `i` of a tokenized row; the empty string stands for an absent
cell (JS `undefined` is falsy exactly as the empty string is). -/
def cellAt (vs : List String) (i : Nat) : String := vs.getD i ""

/-- Classification of one quiz data row (`parseQuizCSV`, loop body):
`none` when the row has fewer than 10 cells or an empty Gujarati or
English question text, otherwise the grouping title (cell 0, with
`'Imported Quiz'` for an empty cell) and the question object. -/
def quizRowToEntry (line : String) : Option (String × Question) :=
  let values := splitCells line
  if values.length < 10 then none
  else
    let title := if cellAt values 0 = "" then "Imported Quiz" else cellAt values 0
    let questionGujarati := cellAt values 3
    let questionEnglish := cellAt values 4
    let options := [cellAt values 5, cellAt values 6, cellAt values 7, cellAt values 8]
    if questionGujarati = "" ∨ questionEnglish = "" then none
    else
      some (title,
        { question := questionGujarati ++ " / " ++ questionEnglish,
          question_gujarati := questionGujarati,
          options := options.filter (fun o => !(o == "")),
          correct_answer := cellAt values 9,
          explanation := "" })

/-- One iteration of the grouping loop of `parseQuizCSV`. -/
def quizGroupStep (gs : List (String × List Question)) (line : String) :
    List (String × List Question) :=
  match quizRowToEntry line with
  | none => gs
  | some (t, q) => addToGroup gs t q

/-- The grouping pass of `parseQuizCSV` over the data rows (the rows
after the header). -/
def buildQuizGroups (rows : List String) : List (String × List Question) :=
  rows.foldl quizGroupStep []

/-- Description written by the update branch of `parseQuizCSV`. -/
def quizUpdateDescription (title : String) (n : Nat) : String :=
  "Updated " ++ title ++ " - Imported from CSV with " ++ Nat.repr n ++ " questions"

/-- Description written by the insert branch of `parseQuizCSV`. -/
def quizInsertDescription (title : String) (n : Nat) : String :=
  title ++ " - Imported from CSV with " ++ Nat.repr n ++ " questions"

/-- The record inserted by the insert branch of `parseQuizCSV`. -/
def newQuizRec (uid title : String) (qs : List Question) (id : Nat) : QuizRec :=
  { id := id, title := title,
    description := quizInsertDescription title qs.length,
    quiz_type := "game", difficulty_level := 2, time_limit := 15,
    questions := qs, created_by := uid }

/-- The field replacement performed by the update branch of
`parseQuizCSV` on the existing record. -/
def updateQuizRec (title : String) (qs : List Question) (r : QuizRec) : QuizRec :=
  { r with questions := qs, description := quizUpdateDescription title qs.length }

/-- One iteration of the upsert loop of `parseQuizCSV`.  State:
(store, createdCount, updatedCount, write-operation index). -/
def quizStep (uid : String) (ok : Nat → Bool)
    (st : QuizDB × Nat × Nat × Nat) (agg : String × List Question) :
    QuizDB × Nat × Nat × Nat :=
  let (db, created, updated, i) := st
  let (title, questions) := agg
  if questions.length = 0 then (db, created, updated, i)
  else
    match findQuiz db title uid with
    | some existing =>
      if ok i then
        ({ db with
            recs := db.recs.map (fun r =>
              if r.id = existing.id then updateQuizRec title questions r else r) },
         created, updated + 1, i + 1)
      else (db, created, updated, i + 1)
    | none =>
      if ok i then
        ({ recs := db.recs ++ [newQuizRec uid title questions db.nextId],
           nextId := db.nextId + 1 },
         created + 1, updated, i + 1)
      else (db, created, updated, i + 1)

/-- Embedding of `parseQuizCSV(lines)`: group the rows after the header,
then run the upsert loop; returns (store, createdCount, updatedCount). -/
def parseQuizCSV (uid : String) (ok : Nat → Bool) (lines : List String) (db : QuizDB) :
    QuizDB × Nat × Nat :=
  let groups := buildQuizGroups (lines.drop 1)
  let res := groups.foldl (quizStep uid ok) (db, 0, 0, 0)
  (res.1, res.2.1, res.2.2.1)

/-- One row of the remote `vocabulary` table (the columns the importer
reads or writes). -/
structure VocabRec where
  english_word : String
  gujarati_word : String
  gujarati_transliteration : String
  difficulty_level : Int
  created_by : String
deriving DecidableEq

/-- Classification of one vocabulary data row (`parseVocabularyCSV`,
loop body): `none` when the row has fewer than 3 cells or an empty
English or Gujarati word. -/
def vocabEntry? (uid : String) (line : String) : Option VocabRec :=
  let values := splitCells line
  if values.length < 3 then none
  else
    let englishWord := cellAt values 0
    let gujaratiWord := cellAt values 1
    if englishWord = "" ∨ gujaratiWord = "" then none
    else
      some { english_word := englishWord, gujarati_word := gujaratiWord,
             gujarati_transliteration := cellAt values 2,
             difficulty_level := jsParseIntDefault1 (values.get? 3),
             created_by := uid }

/-- Embedding of the lookup
`supabase.from('vocabulary').select('id').eq('english_word', e).eq('gujarati_word', g).maybeSingle()`. -/
def findVocab (db : List VocabRec) (e g : String) : Option VocabRec :=
  db.find? (fun r => r.english_word == e && r.gujarati_word == g)

/-- The `CHECK (difficulty_level BETWEEN 1 AND 5)` constraint on the
`vocabulary` table (SQL migration); the remote store rejects an insert
that violates it, which the client observes as an insert error. -/
def vocabConstraintOk (r : VocabRec) : Bool :=
  decide (1 ≤ r.difficulty_level ∧ r.difficulty_level ≤ 5)

/-- One iteration of the row loop of `parseVocabularyCSV`.  State:
(store, createdCount, write-operation index). -/
def vocabStep (uid : String) (ok : Nat → Bool)
    (st : List VocabRec × Nat × Nat) (line : String) : List VocabRec × Nat × Nat :=
  let (db, created, i) := st
  match vocabEntry? uid line with
  | none => (db, created, i)
  | some ent =>
    match findVocab db ent.english_word ent.gujarati_word with
    | some _ => (db, created, i)
    | none =>
      if ok i && vocabConstraintOk ent then (db ++ [ent], created + 1, i + 1)
      else (db, created, i + 1)

/-- Embedding of `parseVocabularyCSV(lines)`; its `updatedCount` is the
literal `0` of the source's return value. -/
def parseVocabularyCSV (uid : String) (ok : Nat → Bool) (lines : List String)
    (db : List VocabRec) : List VocabRec × Nat :=
  let res := (lines.drop 1).foldl (vocabStep uid ok) (db, 0, 0)
  (res.1, res.2.1)

/-- One turn object as pushed by `parseDialogueCSV`. -/
structure DialogueTurn where
  speaker : String
  english : String
  gujarati : String
  transliteration : String
deriving DecidableEq

/-- Classification of one dialogue data row (`parseDialogueCSV`, loop
body): `none` when the row has fewer than 5 cells or an empty speaker,
English or Gujarati text. -/
def dialogueEntry? (line : String) : Option (String × DialogueTurn) :=
  let values := splitCells line
  if values.length < 5 then none
  else
    let title := if cellAt values 0 = "" then "Imported Dialogue" else cellAt values 0
    let speaker := cellAt values 1
    let english := cellAt values 2
    let gujarati := cellAt values 3
    if speaker = "" ∨ english = "" ∨ gujarati = "" then none
    else some (title, ⟨speaker, english, gujarati, cellAt values 4⟩)

/-- One iteration of the grouping loop of `parseDialogueCSV`. -/
def dialogueGroupStep (gs : List (String × List DialogueTurn)) (line : String) :
    List (String × List DialogueTurn) :=
  match dialogueEntry? line with
  | none => gs
  | some (t, d) => addToGroup gs t d

/-- The grouping pass of `parseDialogueCSV` over the data rows. -/
def buildDialogueGroups (rows : List String) : List (String × List DialogueTurn) :=
  rows.foldl dialogueGroupStep []

/-- One row of the remote `dialogues` table (the columns the importer
writes). -/
structure DialogueRec where
  title : String
  description : String
  scenario : String
  dialogue_data : List DialogueTurn
  difficulty_level : Nat
  created_by : String
deriving DecidableEq

/-- Description written by the insert of `parseDialogueCSV`. -/
def dialogueInsertDescription (title : String) (n : Nat) : String :=
  title ++ " - Imported from CSV with " ++ Nat.repr n ++ " steps"

/-- The record inserted by `parseDialogueCSV` for one aggregate. -/
def newDialogueRec (uid title : String) (dd : List DialogueTurn) : DialogueRec :=
  { title := title, description := dialogueInsertDescription title dd.length,
    scenario := "Imported conversation", dialogue_data := dd,
    difficulty_level := 2, created_by := uid }

/-- One iteration of the insert loop of `parseDialogueCSV`: dialogues
are always inserted, never looked up or updated.  State:
(store, createdCount, write-operation index). -/
def dialogueStep (uid : String) (ok : Nat → Bool)
    (st : List DialogueRec × Nat × Nat) (agg : String × List DialogueTurn) :
    List DialogueRec × Nat × Nat :=
  let (db, created, i) := st
  let (title, dd) := agg
  if dd.length = 0 then (db, created, i)
  else if ok i then (db ++ [newDialogueRec uid title dd], created + 1, i + 1)
  else (db, created, i + 1)

/-- Embedding of `parseDialogueCSV(lines)`; its `updatedCount` is the
literal `0` of the source's return value. -/
def parseDialogueCSV (uid : String) (ok : Nat → Bool) (lines : List String)
    (db : List DialogueRec) : List DialogueRec × Nat :=
  let groups := buildDialogueGroups (lines.drop 1)
  let res := groups.foldl (dialogueStep uid ok) (db, 0, 0)
  (res.1, res.2.1)

/-- The three content kinds of the importer that the claims concern. -/
inductive UploadType
  | quiz
  | vocabulary
  | dialogue
deriving DecidableEq

/-- The remote store state touched by the importer. -/
structure Stores where
  quizzes : QuizDB
  vocab : List VocabRec
  dialogues : List DialogueRec
deriving DecidableEq

/-- An empty remote store. -/
def emptyStores : Stores := ⟨⟨[], 0⟩, [], []⟩

/-- Message of the error thrown by the two-line guard. -/
def headerDataError : String := "CSV must have at least a header row and one data row"

/-- Embedding of `parseCSVAndCreateContent(csvText)`: trim, split into
lines, throw when fewer than two lines, otherwise dispatch on the upload
type.  The pair returned is (remote store after the call, thrown error
or the `{ createdCount, updatedCount }` result). -/
def parseCSVAndCreateContent (uploadType : UploadType) (uid : String) (ok : Nat → Bool)
    (csvText : String) (st : Stores) : Stores × Except String (Nat × Nat) :=
  let lines := jsSplit (jsTrim csvText) '\n'
  if lines.length < 2 then (st, Except.error headerDataError)
  else
    match uploadType with
    | .quiz =>
      let res := parseQuizCSV uid ok lines st.quizzes
      ({ st with quizzes := res.1 }, Except.ok (res.2.1, res.2.2))
    | .vocabulary =>
      let res := parseVocabularyCSV uid ok lines st.vocab
      ({ st with vocab := res.1 }, Except.ok (res.2, 0))
    | .dialogue =>
      let res := parseDialogueCSV uid ok lines st.dialogues
      ({ st with dialogues := res.1 }, Except.ok (res.2, 0))

/-- Predicate of claim C3 on one data row: at least 10 cells, non-empty
cells 3 and 4 (after quote removal and trimming), and cell 0 grouping to
title `t` (an empty cell 0 groups to `'Imported Quiz'`). -/
def isQuizRowFor (t : String) (line : String) : Bool :=
  let vs := splitCells line
  decide (10 ≤ vs.length) && !(cellAt vs 3 == "") && !(cellAt vs 4 == "")
    && ((if cellAt vs 0 = "" then "Imported Quiz" else cellAt vs 0) == t)

/-- A quiz data row the loop of `parseQuizCSV` skips: fewer than 10
cells, or an empty required question field. -/
def quizRowInvalid (line : String) : Bool :=
  let vs := splitCells line
  decide (vs.length < 10) || cellAt vs 3 == "" || cellAt vs 4 == ""

/-- A vocabulary data row the loop of `parseVocabularyCSV` skips: fewer
than 3 cells, or an empty required word field. -/
def vocabRowInvalid (line : String) : Bool :=
  let vs := splitCells line
  decide (vs.length < 3) || cellAt vs 0 == "" || cellAt vs 1 == ""

/-- A dialogue data row the loop of `parseDialogueCSV` skips: fewer than
5 cells, or an empty required speaker/text field. -/
def dialogueRowInvalid (line : String) : Bool :=
  let vs := splitCells line
  decide (vs.length < 5) || cellAt vs 1 == "" || cellAt vs 2 == ""
    || cellAt vs 3 == ""

/-- There is a quiz with this title and owner in the store. -/
def hasQuiz (db : QuizDB) (t uid : String) : Bool := (findQuiz db t uid).isSome

/-- There is a vocabulary record with this word pair in the store. -/
def hasVocabPair (db : List VocabRec) (e g : String) : Bool := (findVocab db e g).isSome

theorem mem_of_mem_dropWhileB {α : Type} (p : α → Bool) :
    ∀ (l : List α) (a : α), a ∈ l.dropWhile p → a ∈ l := by
  intro l
  induction l with
  | nil => intro a h; simp [List.dropWhile] at h
  | cons x xs ih =>
    intro a h
    by_cases hp : p x
    · simp only [List.dropWhile, hp] at h
      exact List.mem_cons_of_mem x (ih a h)
    · simp only [List.dropWhile, hp] at h
      exact h

theorem mem_trimChars (c : Char) (l : List Char) (h : c ∈ trimChars l) : c ∈ l := by
  unfold trimChars at h
  rw [List.mem_reverse] at h
  have h1 := mem_of_mem_dropWhileB _ _ _ h
  rw [List.mem_reverse] at h1
  exact mem_of_mem_dropWhileB _ _ _ h1

/-- C2: when the trimmed input splits into fewer than two
newline-separated lines, the importer returns the header-and-data-row
error for every content kind and the remote store is exactly the store
it was given: the error is raised before any select, insert or update. -/
theorem short_input_throws_before_store_ops (uploadType : UploadType)
    (uid : String) (ok : Nat → Bool) (csvText : String) (st : Stores)
    (h : (jsSplit (jsTrim csvText) '\n').length < 2) :
    parseCSVAndCreateContent uploadType uid ok csvText st =
      (st, Except.error headerDataError) := by
  unfold parseCSVAndCreateContent
  rw [if_pos h]

theorem short_input_throws_before_store_ops_witness :
    (jsSplit (jsTrim "English,Gujarati") '\n').length < 2 ∧
    parseCSVAndCreateContent .vocabulary "u" (fun _ => true) "English,Gujarati"
      emptyStores = (emptyStores, Except.error headerDataError) :=
  ⟨by decide,
   short_input_throws_before_store_ops .vocabulary "u" (fun _ => true)
     "English,Gujarati" emptyStores (by decide)⟩

/-- C7 (counterexample): the claim says an interior quote character of a
cell survives tokenization; on the line `ab"cd, x` the code removes the
interior quote (the cell comes out as `abcd`, not `ab"cd`), so the claim
is false. -/
theorem tokenizer_strips_interior_quotes_cex :
    splitCells "ab\"cd, x" = ["abcd", "x"] ∧ ("abcd" : String) ≠ "ab\"cd" :=
  ⟨rfl, by decide⟩

/-- C7 (amended): the tokenizer splits a line on commas and normalises
each cell by removing every double-quote character — interior ones
included — and then trimming surrounding whitespace; no quote character
ever survives in any cell. -/
theorem tokenizer_removes_all_quotes (line : String) :
    splitCells line = (jsSplit line ',').map (fun v => jsTrim (removeQuotes v)) ∧
    ∀ cell ∈ splitCells line, ∀ c ∈ cell.data, c ≠ '"' := by
  refine ⟨rfl, ?_⟩
  intro cell hcell c hc
  rcases List.mem_map.mp hcell with ⟨v, _, rfl⟩
  have hmem : c ∈ (removeQuotes v).data := mem_trimChars c _ hc
  have h2 := List.mem_filter.mp hmem
  exact of_decide_eq_true h2.2

/-- C8 (counterexample): the claim's input text is a single line, so
the importer throws the header-and-data-row error and creates no
aggregate at all — in particular no quiz titled `Title`. -/
theorem single_line_example_throws_cex :
    parseCSVAndCreateContent .quiz "u" (fun _ => true)
        "Title,Type,Desc,Q1-guj,Q1-eng,A,B,C,D,A" emptyStores =
      (emptyStores, Except.error headerDataError) ∧
    hasQuiz (parseCSVAndCreateContent .quiz "u" (fun _ => true)
        "Title,Type,Desc,Q1-guj,Q1-eng,A,B,C,D,A" emptyStores).1.quizzes
      "Title" "u" = false :=
  ⟨rfl, rfl⟩

/-- C8 (amended): the example row preceded by a header line yields
exactly one aggregate titled `Title` with one question whose
correct_answer is `A` and whose options are `A,B,C,D`; the importer
inserts it and reports one creation. -/
theorem example_row_with_header_yields_quiz :
    buildQuizGroups ["Title,Type,Desc,Q1-guj,Q1-eng,A,B,C,D,A"] =
      [("Title", [⟨"Q1-guj / Q1-eng", "Q1-guj", ["A", "B", "C", "D"], "A", ""⟩])] ∧
    parseCSVAndCreateContent .quiz "u" (fun _ => true)
        "h\nTitle,Type,Desc,Q1-guj,Q1-eng,A,B,C,D,A" emptyStores =
      (⟨⟨[{ id := 0, title := "Title",
            description := "Title - Imported from CSV with 1 questions",
            quiz_type := "game", difficulty_level := 2, time_limit := 15,
            questions := [⟨"Q1-guj / Q1-eng", "Q1-guj", ["A", "B", "C", "D"], "A", ""⟩],
            created_by := "u" }], 1⟩, [], []⟩,
       Except.ok (1, 0)) :=
  ⟨rfl, rfl⟩

theorem groupLookup_addToGroup {α : Type} (gs : List (String × List α))
    (k t : String) (v : α) :
    groupLookup (addToGroup gs k v) t =
      if k = t then groupLookup gs t ++ [v] else groupLookup gs t := by
  induction gs with
  | nil => by_cases h : k = t <;> simp [addToGroup, groupLookup, h]
  | cons p rest ih =>
    by_cases h1 : p.1 = k
    · by_cases h2 : k = t
      · simp [addToGroup, groupLookup, h1, h2, h1.trans h2]
      · have hpt : ¬ p.1 = t := by rw [h1]; exact h2
        simp [addToGroup, groupLookup, h1, h2, hpt]
    · by_cases h3 : p.1 = t
      · have hkt : ¬ k = t := fun hkt => h1 (h3.trans hkt.symm)
        have htk : ¬ t = k := fun h => hkt h.symm
        simp [addToGroup, groupLookup, h1, h3, hkt, htk]
      · simp [addToGroup, groupLookup, h1, h3, ih]

theorem isQuizRowFor_iff (t line : String) :
    isQuizRowFor t line = true ↔ ∃ q, quizRowToEntry line = some (t, q) := by
  unfold isQuizRowFor quizRowToEntry
  by_cases h1 : (splitCells line).length < 10
  · simp [h1, Nat.not_le.mpr h1]
  · by_cases h2 : cellAt (splitCells line) 3 = ""
    · simp [h1, h2]
    · by_cases h3 : cellAt (splitCells line) 4 = ""
      · simp [h1, h2, h3]
      · simp [h1, Nat.not_lt.mp h1, h2, h3]

theorem groupLookup_quizGroupStep (gs : List (String × List Question))
    (line : String) (t : String) :
    (groupLookup (quizGroupStep gs line) t).length =
      (groupLookup gs t).length + (if isQuizRowFor t line = true then 1 else 0) := by
  rcases hE : quizRowToEntry line with _ | ⟨k, q⟩
  · have hrow : isQuizRowFor t line = false := by
      rw [Bool.eq_false_iff]
      intro hc
      rcases (isQuizRowFor_iff t line).mp hc with ⟨q, hq⟩
      rw [hE] at hq
      exact Option.noConfusion hq
    simp [quizGroupStep, hE, hrow]
  · by_cases hk : k = t
    · have hrow : isQuizRowFor t line = true := by
        rw [isQuizRowFor_iff]
        exact ⟨q, by rw [hE, hk]⟩
      simp [quizGroupStep, hE, groupLookup_addToGroup, hk, hrow]
    · have hrow : isQuizRowFor t line = false := by
        rw [Bool.eq_false_iff]
        intro hc
        rcases (isQuizRowFor_iff t line).mp hc with ⟨q', hq⟩
        rw [hE] at hq
        injection hq with h'
        exact hk (congrArg Prod.fst h')
      simp [quizGroupStep, hE, groupLookup_addToGroup, hk, hrow]

theorem groupLookup_foldQuiz (rows : List String)
    (gs : List (String × List Question)) (t : String) :
    (groupLookup (rows.foldl quizGroupStep gs) t).length =
      (groupLookup gs t).length + rows.countP (isQuizRowFor t) := by
  induction rows generalizing gs with
  | nil => simp
  | cons line rest ih =>
    rw [List.foldl_cons, ih, List.countP_cons, groupLookup_quizGroupStep]
    omega

/-- C3: for every quiz CSV input and every title, the aggregate built
for that title has exactly as many questions as there are data rows
(rows after the header line) with at least 10 cells, non-empty question
cells 3 and 4 (after quote removal and trimming), and a cell 0 grouping
to that title. -/
theorem quiz_aggregate_question_count (lines : List String) (t : String) :
    (groupLookup (buildQuizGroups (lines.drop 1)) t).length =
      (lines.drop 1).countP (isQuizRowFor t) := by
  unfold buildQuizGroups
  rw [groupLookup_foldQuiz]
  simp [groupLookup]

theorem quizRowToEntry_of_invalid (line : String) (h : quizRowInvalid line = true) :
    quizRowToEntry line = none := by
  simp only [quizRowInvalid, Bool.or_eq_true] at h
  rcases h with (h | h) | h
  · simp [quizRowToEntry, of_decide_eq_true h]
  · simp [quizRowToEntry, eq_of_beq h]
  · simp [quizRowToEntry, eq_of_beq h]

theorem vocabEntry?_of_invalid (uid line : String) (h : vocabRowInvalid line = true) :
    vocabEntry? uid line = none := by
  simp only [vocabRowInvalid, Bool.or_eq_true] at h
  rcases h with (h | h) | h
  · simp [vocabEntry?, of_decide_eq_true h]
  · simp [vocabEntry?, eq_of_beq h]
  · simp [vocabEntry?, eq_of_beq h]

theorem dialogueEntry?_of_invalid (line : String) (h : dialogueRowInvalid line = true) :
    dialogueEntry? line = none := by
  simp only [dialogueRowInvalid, Bool.or_eq_true] at h
  rcases h with ((h | h) | h) | h
  · simp [dialogueEntry?, of_decide_eq_true h]
  · simp [dialogueEntry?, eq_of_beq h]
  · simp [dialogueEntry?, eq_of_beq h]
  · simp [dialogueEntry?, eq_of_beq h]

theorem buildQuizGroups_skip (before after : List String) (bad : String)
    (h : quizRowToEntry bad = none) :
    buildQuizGroups (before ++ bad :: after) = buildQuizGroups (before ++ after) := by
  unfold buildQuizGroups
  rw [List.foldl_append, List.foldl_append, List.foldl_cons]
  simp [quizGroupStep, h]

theorem buildDialogueGroups_skip (before after : List String) (bad : String)
    (h : dialogueEntry? bad = none) :
    buildDialogueGroups (before ++ bad :: after) = buildDialogueGroups (before ++ after) := by
  unfold buildDialogueGroups
  rw [List.foldl_append, List.foldl_append, List.foldl_cons]
  simp [dialogueGroupStep, h]

theorem vocabFold_skip (uid : String) (ok : Nat → Bool) (before after : List String)
    (bad : String) (h : vocabEntry? uid bad = none) (st : List VocabRec × Nat × Nat) :
    (before ++ bad :: after).foldl (vocabStep uid ok) st =
      (before ++ after).foldl (vocabStep uid ok) st := by
  rw [List.foldl_append, List.foldl_append, List.foldl_cons]
  congr 1
  obtain ⟨db, created, i⟩ := before.foldl (vocabStep uid ok) st
  simp [vocabStep, h]

/-- C4: a data row with fewer than the minimum number of cells for its
content kind (10 for quiz, 3 for vocabulary, 5 for dialogue) or with an
empty required positional field is skipped by the row loop: the import
of the input with the row is the same store, createdCount and
updatedCount as the import of the input without it — the row joins no
aggregate, no error is recorded anywhere for it (the embedded importer
has no per-row error channel, mirroring the code's bare `continue`),
and all other rows are processed as before. -/
theorem invalid_row_skipped_without_effect (uid : String) (ok : Nat → Bool)
    (header bad : String) (before after : List String) :
    (quizRowInvalid bad = true → ∀ db,
      parseQuizCSV uid ok (header :: (before ++ bad :: after)) db =
        parseQuizCSV uid ok (header :: (before ++ after)) db) ∧
    (vocabRowInvalid bad = true → ∀ db,
      parseVocabularyCSV uid ok (header :: (before ++ bad :: after)) db =
        parseVocabularyCSV uid ok (header :: (before ++ after)) db) ∧
    (dialogueRowInvalid bad = true → ∀ db,
      parseDialogueCSV uid ok (header :: (before ++ bad :: after)) db =
        parseDialogueCSV uid ok (header :: (before ++ after)) db) := by
  refine ⟨?_, ?_, ?_⟩
  · intro h db
    have hg : buildQuizGroups ((header :: (before ++ bad :: after)).drop 1) =
        buildQuizGroups ((header :: (before ++ after)).drop 1) := by
      simp only [List.drop_succ_cons, List.drop_zero]
      exact buildQuizGroups_skip before after bad (quizRowToEntry_of_invalid bad h)
    simp only [parseQuizCSV, hg]
  · intro h db
    have hf : ((header :: (before ++ bad :: after)).drop 1).foldl (vocabStep uid ok) (db, 0, 0) =
        ((header :: (before ++ after)).drop 1).foldl (vocabStep uid ok) (db, 0, 0) := by
      simp only [List.drop_succ_cons, List.drop_zero]
      exact vocabFold_skip uid ok before after bad (vocabEntry?_of_invalid uid bad h) _
    simp only [parseVocabularyCSV, hf]
  · intro h db
    have hg : buildDialogueGroups ((header :: (before ++ bad :: after)).drop 1) =
        buildDialogueGroups ((header :: (before ++ after)).drop 1) := by
      simp only [List.drop_succ_cons, List.drop_zero]
      exact buildDialogueGroups_skip before after bad (dialogueEntry?_of_invalid bad h)
    simp only [parseDialogueCSV, hg]

theorem invalid_row_skipped_without_effect_witness :
    parseQuizCSV "u" (fun _ => true)
        ["h", "A,B", "T,x,y,g,e,a,b,c,d,a"] ⟨[], 0⟩ =
      parseQuizCSV "u" (fun _ => true) ["h", "T,x,y,g,e,a,b,c,d,a"] ⟨[], 0⟩ ∧
    parseVocabularyCSV "u" (fun _ => true) ["h", "A,B", "cat,billi,b"] [] =
      parseVocabularyCSV "u" (fun _ => true) ["h", "cat,billi,b"] [] ∧
    parseDialogueCSV "u" (fun _ => true) ["h", "A,B", "T,S,hi,he,h"] [] =
      parseDialogueCSV "u" (fun _ => true) ["h", "T,S,hi,he,h"] [] :=
  ⟨(invalid_row_skipped_without_effect "u" (fun _ => true) "h" "A,B" []
      ["T,x,y,g,e,a,b,c,d,a"]).1 (by decide) ⟨[], 0⟩,
   (invalid_row_skipped_without_effect "u" (fun _ => true) "h" "A,B" []
      ["cat,billi,b"]).2.1 (by decide) [],
   (invalid_row_skipped_without_effect "u" (fun _ => true) "h" "A,B" []
      ["T,S,hi,he,h"]).2.2 (by decide) []⟩

theorem find?_isSome_append_left {α : Type} (p : α → Bool) (l l' : List α)
    (h : (l.find? p).isSome = true) : ((l ++ l').find? p).isSome = true := by
  induction l with
  | nil => simp at h
  | cons a rest ih =>
    by_cases hpa : p a
    · rw [List.cons_append, List.find?_cons_of_pos _ hpa]
      rfl
    · rw [List.find?_cons_of_neg _ hpa] at h
      rw [List.cons_append, List.find?_cons_of_neg _ hpa]
      exact ih h

theorem find?_isSome_append_right {α : Type} (p : α → Bool) (l : List α) (x : α)
    (h : p x = true) : ((l ++ [x]).find? p).isSome = true := by
  induction l with
  | nil => rw [List.nil_append, List.find?_cons_of_pos _ h]; rfl
  | cons a rest ih =>
    by_cases hpa : p a
    · rw [List.cons_append, List.find?_cons_of_pos _ hpa]
      rfl
    · rw [List.cons_append, List.find?_cons_of_neg _ hpa]
      exact ih

theorem find?_isSome_map_preserve {α : Type} (p : α → Bool) (f : α → α)
    (hp : ∀ a, p (f a) = p a) (l : List α) :
    ((l.map f).find? p).isSome = (l.find? p).isSome := by
  induction l with
  | nil => simp
  | cons a rest ih =>
    by_cases hpa : p a
    · rw [List.map_cons, List.find?_cons_of_pos _ ((hp a).trans hpa),
        List.find?_cons_of_pos _ hpa]
      rfl
    · have hfa : ¬ p (f a) = true := by rw [hp a]; exact hpa
      rw [List.map_cons, List.find?_cons_of_neg _ hfa, List.find?_cons_of_neg _ hpa]
      exact ih

theorem find?_none_left {α : Type} (p : α → Bool) (l l' : List α)
    (h : (l ++ l').find? p = none) : l.find? p = none := by
  induction l with
  | nil => simp
  | cons a rest ih =>
    by_cases hpa : p a
    · rw [List.cons_append, List.find?_cons_of_pos _ hpa] at h
      exact Option.noConfusion h
    · rw [List.cons_append, List.find?_cons_of_neg _ hpa] at h
      rw [List.find?_cons_of_neg _ hpa]
      exact ih h

/-- C5: for a quiz aggregate with at least one question whose write
succeeds, the upsert takes exactly one of two branches: when a quiz with
the same title and owner exists, that record gets the new questions and
the update description and updatedCount alone is incremented; when none
exists, a new record with the fixed default metadata (difficulty_level
2, time_limit 15) is appended and createdCount alone is incremented. -/
theorem quiz_upsert_branches (uid t : String) (qs : List Question) (ok : Nat → Bool)
    (db : QuizDB) (c u i : Nat) (hqs : qs ≠ []) (hok : ok i = true) :
    (∀ r, findQuiz db t uid = some r →
      (quizStep uid ok (db, c, u, i) (t, qs)).2 = (c, u + 1, i + 1) ∧
      ∃ r' ∈ (quizStep uid ok (db, c, u, i) (t, qs)).1.recs,
        r'.id = r.id ∧ r'.title = t ∧ r'.created_by = uid ∧
        r'.questions = qs ∧ r'.description = quizUpdateDescription t qs.length) ∧
    (findQuiz db t uid = none →
      (quizStep uid ok (db, c, u, i) (t, qs)).2 = (c + 1, u, i + 1) ∧
      (quizStep uid ok (db, c, u, i) (t, qs)).1.recs =
        db.recs ++ [newQuizRec uid t qs db.nextId] ∧
      (newQuizRec uid t qs db.nextId).difficulty_level = 2 ∧
      (newQuizRec uid t qs db.nextId).time_limit = 15) := by
  have hlen : ¬ qs.length = 0 := fun hc => hqs (List.length_eq_zero.mp hc)
  constructor
  · intro r hfind
    have hres : quizStep uid ok (db, c, u, i) (t, qs) =
        (QuizDB.mk (db.recs.map
            (fun r' => if r'.id = r.id then updateQuizRec t qs r' else r')) db.nextId,
         c, u + 1, i + 1) := by
      simp [quizStep, hlen, hfind, hok]
    have hrmem : r ∈ db.recs := List.mem_of_find?_eq_some hfind
    have hpr := List.find?_some hfind
    rw [Bool.and_eq_true] at hpr
    have hti : r.title = t := eq_of_beq hpr.1
    have hui : r.created_by = uid := eq_of_beq hpr.2
    refine ⟨by rw [hres], updateQuizRec t qs r, ?_, rfl, hti, hui, rfl, rfl⟩
    rw [hres]
    have hfr : (fun r' => if r'.id = r.id then updateQuizRec t qs r' else r') r =
        updateQuizRec t qs r := by simp
    exact hfr ▸ List.mem_map_of_mem _ hrmem
  · intro hfind
    have hres : quizStep uid ok (db, c, u, i) (t, qs) =
        ({ recs := db.recs ++ [newQuizRec uid t qs db.nextId],
           nextId := db.nextId + 1 }, c + 1, u, i + 1) := by
      simp [quizStep, hlen, hfind, hok]
    rw [hres]
    exact ⟨rfl, rfl, rfl, rfl⟩

theorem quiz_upsert_branches_witness :
    ([(⟨"g / e", "g", ["a"], "a", ""⟩ : Question)] ≠ []) ∧
    (quizStep "u" (fun _ => true) (⟨[], 0⟩, 0, 0, 0)
        ("T", [⟨"g / e", "g", ["a"], "a", ""⟩])).2 = (1, 0, 1) ∧
    (quizStep "u" (fun _ => true)
        (⟨[⟨5, "T", "d", "game", 2, 15, [], "u"⟩], 6⟩, 0, 0, 0)
        ("T", [⟨"g / e", "g", ["a"], "a", ""⟩])).2 = (0, 1, 1) :=
  ⟨by decide,
   ((quiz_upsert_branches "u" "T" [⟨"g / e", "g", ["a"], "a", ""⟩] (fun _ => true)
       ⟨[], 0⟩ 0 0 0 (by decide) rfl).2 rfl).1,
   ((quiz_upsert_branches "u" "T" [⟨"g / e", "g", ["a"], "a", ""⟩] (fun _ => true)
       ⟨[⟨5, "T", "d", "game", 2, 15, [], "u"⟩], 6⟩ 0 0 0 (by decide) rfl).1
     ⟨5, "T", "d", "game", 2, 15, [], "u"⟩ rfl).1⟩

theorem vocabFold_insert_only (uid : String) (ok : Nat → Bool) :
    ∀ (rows : List String) (db : List VocabRec) (c i : Nat), ∃ tail,
      (rows.foldl (vocabStep uid ok) (db, c, i)).1 = db ++ tail ∧
      ∀ r ∈ tail, findVocab db r.english_word r.gujarati_word = none ∧
        vocabConstraintOk r = true := by
  intro rows
  induction rows with
  | nil => intro db c i; exact ⟨[], by simp, by simp⟩
  | cons line rest ih =>
    intro db c i
    rw [List.foldl_cons]
    rcases hE : vocabEntry? uid line with _ | ent
    · have hstep : vocabStep uid ok (db, c, i) line = (db, c, i) := by
        simp [vocabStep, hE]
      rw [hstep]
      exact ih db c i
    · rcases hF : findVocab db ent.english_word ent.gujarati_word with _ | r0
      · by_cases hOk : (ok i && vocabConstraintOk ent) = true
        · have hstep : vocabStep uid ok (db, c, i) line = (db ++ [ent], c + 1, i + 1) := by
            simp [vocabStep, hE, hF, hOk]
          rw [hstep]
          rcases ih (db ++ [ent]) (c + 1) (i + 1) with ⟨tail, htail, hcond⟩
          refine ⟨ent :: tail, ?_, ?_⟩
          · rw [htail, List.append_assoc]
            rfl
          · intro r hr
            rcases List.mem_cons.mp hr with hre | hrt
            · subst hre
              rw [Bool.and_eq_true] at hOk
              exact ⟨hF, hOk.2⟩
            · have hc := hcond r hrt
              exact ⟨find?_none_left _ db [ent] hc.1, hc.2⟩
        · have hstep : vocabStep uid ok (db, c, i) line = (db, c, i + 1) := by
            simp [vocabStep, hE, hF, hOk]
          rw [hstep]
          exact ih db c (i + 1)
      · have hstep : vocabStep uid ok (db, c, i) line = (db, c, i) := by
          simp [vocabStep, hE, hF]
        rw [hstep]
        exact ih db c i

/-- C10: the vocabulary import path never updates: for every input, the
vocabulary store after the import is exactly the old store with some new
records appended (every pre-existing record survives unchanged, in
place), every appended record's (english_word, gujarati_word) pair was
absent before the import, and the reported updatedCount is 0 whenever
the importer returns at all. -/
theorem vocab_import_insert_only (uid : String) (ok : Nat → Bool) (csvText : String)
    (st : Stores) :
    (∃ tail, (parseCSVAndCreateContent .vocabulary uid ok csvText st).1.vocab =
        st.vocab ++ tail ∧
      ∀ r ∈ tail, findVocab st.vocab r.english_word r.gujarati_word = none) ∧
    ((parseCSVAndCreateContent .vocabulary uid ok csvText st).2 =
        Except.error headerDataError ∨
      ∃ c, (parseCSVAndCreateContent .vocabulary uid ok csvText st).2 =
        Except.ok (c, 0)) := by
  by_cases hlen : (jsSplit (jsTrim csvText) '\n').length < 2
  · have hshort : parseCSVAndCreateContent .vocabulary uid ok csvText st =
        (st, Except.error headerDataError) := by
      unfold parseCSVAndCreateContent
      rw [if_pos hlen]
    rw [hshort]
    exact ⟨⟨[], by simp, by simp⟩, Or.inl rfl⟩
  · have hres : parseCSVAndCreateContent .vocabulary uid ok csvText st =
        (Stores.mk st.quizzes
          (parseVocabularyCSV uid ok (jsSplit (jsTrim csvText) '\n') st.vocab).1
          st.dialogues,
         Except.ok ((parseVocabularyCSV uid ok (jsSplit (jsTrim csvText) '\n') st.vocab).2, 0)) := by
      simp [parseCSVAndCreateContent, hlen]
    rw [hres]
    constructor
    · rcases vocabFold_insert_only uid ok ((jsSplit (jsTrim csvText) '\n').drop 1)
        st.vocab 0 0 with ⟨tail, h1, h2⟩
      exact ⟨tail, h1, fun r hr => (h2 r hr).1⟩
    · exact Or.inr ⟨_, rfl⟩

theorem vocabEntry?_difficulty (uid line : String) (ent : VocabRec)
    (h : vocabEntry? uid line = some ent) :
    ent.difficulty_level = jsParseIntDefault1 ((splitCells line).get? 3) := by
  simp only [vocabEntry?] at h
  by_cases h1 : (splitCells line).length < 3
  · rw [if_pos h1] at h
    exact Option.noConfusion h
  · rw [if_neg h1] at h
    by_cases h2 : cellAt (splitCells line) 0 = "" ∨ cellAt (splitCells line) 1 = ""
    · rw [if_pos h2] at h
      exact Option.noConfusion h
    · rw [if_neg h2] at h
      injection h with h'
      rw [← h']

/-- C9: difficulty values persisted in the vocabulary store stay in the
range 1..5: the client parses cell 3 with `parseInt(...) || 1` (so 1 is
the default for an absent or non-numeric cell), and the table's CHECK
constraint rejects any insert whose parsed difficulty lies outside 1..5,
so an import never puts an out-of-range difficulty into the store. -/
theorem vocab_difficulty_range_invariant (uid : String) (ok : Nat → Bool)
    (lines : List String) (db : List VocabRec)
    (hdb : ∀ r ∈ db, 1 ≤ r.difficulty_level ∧ r.difficulty_level ≤ 5) :
    (∀ r ∈ (parseVocabularyCSV uid ok lines db).1,
        1 ≤ r.difficulty_level ∧ r.difficulty_level ≤ 5) ∧
    (∀ line ent, vocabEntry? uid line = some ent →
      ((splitCells line).get? 3 = none → ent.difficulty_level = 1) ∧
      (∀ s, (splitCells line).get? 3 = some s → jsParseInt s = none →
        ent.difficulty_level = 1)) := by
  constructor
  · rcases vocabFold_insert_only uid ok (lines.drop 1) db 0 0 with ⟨tail, h1, h2⟩
    intro r hr
    have heq : (parseVocabularyCSV uid ok lines db).1 = db ++ tail := h1
    rw [heq] at hr
    rcases List.mem_append.mp hr with hrl | hrt
    · exact hdb r hrl
    · exact of_decide_eq_true (h2 r hrt).2
  · intro line ent hent
    have hd := vocabEntry?_difficulty uid line ent hent
    constructor
    · intro hnone
      rw [hd, hnone]
      decide
    · intro s hs hparse
      rw [hd, hs]
      simp [jsParseIntDefault1, hparse]

theorem vocab_difficulty_range_invariant_witness :
    (∀ r ∈ ([] : List VocabRec), 1 ≤ r.difficulty_level ∧ r.difficulty_level ≤ 5) ∧
    (∀ r ∈ (parseVocabularyCSV "u" (fun _ => true) ["h", "a,b,c,7"] []).1,
        1 ≤ r.difficulty_level ∧ r.difficulty_level ≤ 5) :=
  ⟨by simp,
   (vocab_difficulty_range_invariant "u" (fun _ => true) ["h", "a,b,c,7"] []
     (by simp)).1⟩

theorem parseContent_success_quiz (uid : String) (ok : Nat → Bool) (csvText : String)
    (st : Stores) (hlen : ¬ (jsSplit (jsTrim csvText) '\n').length < 2) :
    parseCSVAndCreateContent .quiz uid ok csvText st =
      (Stores.mk (parseQuizCSV uid ok (jsSplit (jsTrim csvText) '\n') st.quizzes).1
        st.vocab st.dialogues,
       Except.ok ((parseQuizCSV uid ok (jsSplit (jsTrim csvText) '\n') st.quizzes).2.1,
         (parseQuizCSV uid ok (jsSplit (jsTrim csvText) '\n') st.quizzes).2.2)) := by
  simp [parseCSVAndCreateContent, hlen]

theorem parseContent_success_vocab (uid : String) (ok : Nat → Bool) (csvText : String)
    (st : Stores) (hlen : ¬ (jsSplit (jsTrim csvText) '\n').length < 2) :
    parseCSVAndCreateContent .vocabulary uid ok csvText st =
      (Stores.mk st.quizzes
        (parseVocabularyCSV uid ok (jsSplit (jsTrim csvText) '\n') st.vocab).1
        st.dialogues,
       Except.ok ((parseVocabularyCSV uid ok (jsSplit (jsTrim csvText) '\n') st.vocab).2, 0)) := by
  simp [parseCSVAndCreateContent, hlen]

theorem parseContent_success_dialogue (uid : String) (ok : Nat → Bool) (csvText : String)
    (st : Stores) (hlen : ¬ (jsSplit (jsTrim csvText) '\n').length < 2) :
    parseCSVAndCreateContent .dialogue uid ok csvText st =
      (Stores.mk st.quizzes st.vocab
        (parseDialogueCSV uid ok (jsSplit (jsTrim csvText) '\n') st.dialogues).1,
       Except.ok ((parseDialogueCSV uid ok (jsSplit (jsTrim csvText) '\n') st.dialogues).2, 0)) := by
  simp [parseCSVAndCreateContent, hlen]

theorem addToGroup_snd_ne_nil {α : Type} :
    ∀ (gs : List (String × List α)) (k : String) (v : α),
      (∀ g ∈ gs, g.2 ≠ []) → ∀ g ∈ addToGroup gs k v, g.2 ≠ [] := by
  intro gs
  induction gs with
  | nil =>
    intro k v _ g hg
    rw [List.mem_singleton.mp hg]
    simp
  | cons p rest ih =>
    intro k v h g hg
    by_cases hp : p.1 = k
    · rw [addToGroup, if_pos hp] at hg
      rcases List.mem_cons.mp hg with hge | hgr
      · rw [hge]
        simp
      · exact h g (List.mem_cons_of_mem p hgr)
    · rw [addToGroup, if_neg hp] at hg
      rcases List.mem_cons.mp hg with hge | hgr
      · rw [hge]
        exact h p (List.mem_cons_self p rest)
      · exact ih k v (fun g' hg' => h g' (List.mem_cons_of_mem p hg')) g hgr

theorem buildQuizGroups_snd_ne_nil (rows : List String) :
    ∀ g ∈ buildQuizGroups rows, g.2 ≠ [] := by
  have aux : ∀ (rows : List String) (gs : List (String × List Question)),
      (∀ g ∈ gs, g.2 ≠ []) → ∀ g ∈ rows.foldl quizGroupStep gs, g.2 ≠ [] := by
    intro rows
    induction rows with
    | nil => intro gs h; simpa using h
    | cons line rest ih =>
      intro gs h
      rw [List.foldl_cons]
      refine ih (quizGroupStep gs line) ?_
      rcases hE : quizRowToEntry line with _ | ⟨k, q⟩
      · simpa [quizGroupStep, hE] using h
      · intro g hg
        rw [quizGroupStep, hE] at hg
        exact addToGroup_snd_ne_nil gs k q h g hg
  exact aux rows [] (by simp)

theorem buildDialogueGroups_snd_ne_nil (rows : List String) :
    ∀ g ∈ buildDialogueGroups rows, g.2 ≠ [] := by
  have aux : ∀ (rows : List String) (gs : List (String × List DialogueTurn)),
      (∀ g ∈ gs, g.2 ≠ []) → ∀ g ∈ rows.foldl dialogueGroupStep gs, g.2 ≠ [] := by
    intro rows
    induction rows with
    | nil => intro gs h; simpa using h
    | cons line rest ih =>
      intro gs h
      rw [List.foldl_cons]
      refine ih (dialogueGroupStep gs line) ?_
      rcases hE : dialogueEntry? line with _ | ⟨k, d⟩
      · simpa [dialogueGroupStep, hE] using h
      · intro g hg
        rw [dialogueGroupStep, hE] at hg
        exact addToGroup_snd_ne_nil gs k d h g hg
  exact aux rows [] (by simp)

theorem quizStep_preserves_hasQuiz (uid : String) (ok : Nat → Bool) (t' : String)
    (st : QuizDB × Nat × Nat × Nat) (g : String × List Question)
    (h : hasQuiz st.1 t' uid = true) :
    hasQuiz (quizStep uid ok st g).1 t' uid = true := by
  obtain ⟨db, c, u, i⟩ := st
  obtain ⟨t, qs⟩ := g
  by_cases hq : qs.length = 0
  · simpa [quizStep, hq] using h
  · rcases hfind : findQuiz db t uid with _ | r
    · by_cases hok : ok i
      · have hres : (quizStep uid ok (db, c, u, i) (t, qs)).1 =
            QuizDB.mk (db.recs ++ [newQuizRec uid t qs db.nextId]) (db.nextId + 1) := by
          simp [quizStep, hq, hfind, hok]
        rw [hres]
        exact find?_isSome_append_left _ _ _ h
      · have hres : (quizStep uid ok (db, c, u, i) (t, qs)).1 = db := by
          simp [quizStep, hq, hfind, hok]
        rw [hres]
        exact h
    · by_cases hok : ok i
      · have hres : (quizStep uid ok (db, c, u, i) (t, qs)).1 =
            QuizDB.mk (db.recs.map
              (fun r' => if r'.id = r.id then updateQuizRec t qs r' else r')) db.nextId := by
          simp [quizStep, hq, hfind, hok]
        rw [hres]
        have hp : ∀ a : QuizRec,
            ((fun x => x.title == t' && x.created_by == uid)
              ((fun r' => if r'.id = r.id then updateQuizRec t qs r' else r') a)) =
            ((fun x => x.title == t' && x.created_by == uid) a) := by
          intro a
          by_cases ha : a.id = r.id <;> simp [updateQuizRec, ha]
        have hmap := find?_isSome_map_preserve
          (fun x => x.title == t' && x.created_by == uid)
          (fun r' => if r'.id = r.id then updateQuizRec t qs r' else r') hp db.recs
        exact hmap.trans h
      · have hres : (quizStep uid ok (db, c, u, i) (t, qs)).1 = db := by
          simp [quizStep, hq, hfind, hok]
        rw [hres]
        exact h

theorem quizStep_establishes (uid : String) (ok : Nat → Bool)
    (st : QuizDB × Nat × Nat × Nat) (g : String × List Question)
    (hg : g.2 ≠ []) (hok : ok st.2.2.2 = true) :
    hasQuiz (quizStep uid ok st g).1 g.1 uid = true := by
  obtain ⟨db, c, u, i⟩ := st
  obtain ⟨t, qs⟩ := g
  have hq : ¬ qs.length = 0 := fun hc => hg (List.length_eq_zero.mp hc)
  rcases hfind : findQuiz db t uid with _ | r
  · have hres : (quizStep uid ok (db, c, u, i) (t, qs)).1 =
        QuizDB.mk (db.recs ++ [newQuizRec uid t qs db.nextId]) (db.nextId + 1) := by
      simp [quizStep, hq, hfind, hok]
    rw [hres]
    exact find?_isSome_append_right _ _ _ (by simp [newQuizRec])
  · have hpre : hasQuiz db t uid = true := by
      unfold hasQuiz
      rw [hfind]
      rfl
    exact quizStep_preserves_hasQuiz uid ok t (db, c, u, i) (t, qs) hpre

theorem quizStep_opIdx (uid : String) (ok : Nat → Bool)
    (st : QuizDB × Nat × Nat × Nat) (g : String × List Question) (hg : g.2 ≠ []) :
    (quizStep uid ok st g).2.2.2 = st.2.2.2 + 1 := by
  obtain ⟨db, c, u, i⟩ := st
  obtain ⟨t, qs⟩ := g
  have hq : ¬ qs.length = 0 := fun hc => hg (List.length_eq_zero.mp hc)
  rcases hfind : findQuiz db t uid with _ | r <;> by_cases hok : ok i <;>
    simp [quizStep, hq, hfind, hok]

theorem quizStep_count (uid : String) (ok : Nat → Bool)
    (st : QuizDB × Nat × Nat × Nat) (g : String × List Question) (hg : g.2 ≠ []) :
    (quizStep uid ok st g).2.1 + (quizStep uid ok st g).2.2.1 =
      st.2.1 + st.2.2.1 + (if ok st.2.2.2 = true then 1 else 0) := by
  obtain ⟨db, c, u, i⟩ := st
  obtain ⟨t, qs⟩ := g
  have hq : ¬ qs.length = 0 := fun hc => hg (List.length_eq_zero.mp hc)
  rcases hfind : findQuiz db t uid with _ | r <;> by_cases hok : ok i <;>
    simp [quizStep, hq, hfind, hok] <;> omega

theorem quizStep_found_counts (uid : String) (ok : Nat → Bool)
    (st : QuizDB × Nat × Nat × Nat) (t : String) (qs : List Question)
    (hqs : qs ≠ []) (hok : ok st.2.2.2 = true) (hfound : hasQuiz st.1 t uid = true) :
    (quizStep uid ok st (t, qs)).2.1 = st.2.1 ∧
    (quizStep uid ok st (t, qs)).2.2.1 = st.2.2.1 + 1 := by
  obtain ⟨db, c, u, i⟩ := st
  have hq : ¬ qs.length = 0 := fun hc => hqs (List.length_eq_zero.mp hc)
  unfold hasQuiz at hfound
  rcases hfind : findQuiz db t uid with _ | r
  · rw [hfind] at hfound
    exact absurd hfound (by simp)
  · constructor <;> simp [quizStep, hq, hfind, hok]

theorem quizFold_preserves_hasQuiz (uid : String) (ok : Nat → Bool) (t' : String) :
    ∀ (groups : List (String × List Question)) (st : QuizDB × Nat × Nat × Nat),
      hasQuiz st.1 t' uid = true →
      hasQuiz ((groups.foldl (quizStep uid ok) st)).1 t' uid = true := by
  intro groups
  induction groups with
  | nil => intro st h; exact h
  | cons g rest ih =>
    intro st h
    rw [List.foldl_cons]
    exact ih (quizStep uid ok st g) (quizStep_preserves_hasQuiz uid ok t' st g h)

theorem quizFold_opIdx (uid : String) (ok : Nat → Bool) :
    ∀ (groups : List (String × List Question)) (st : QuizDB × Nat × Nat × Nat),
      (∀ g ∈ groups, g.2 ≠ []) →
      (groups.foldl (quizStep uid ok) st).2.2.2 = st.2.2.2 + groups.length := by
  intro groups
  induction groups with
  | nil => intro st _; simp
  | cons g rest ih =>
    intro st h
    rw [List.foldl_cons,
      ih (quizStep uid ok st g) (fun g' hg' => h g' (List.mem_cons_of_mem g hg')),
      quizStep_opIdx uid ok st g (h g (List.mem_cons_self g rest))]
    simp
    omega

theorem quizFold_count (uid : String) (ok : Nat → Bool) :
    ∀ (groups : List (String × List Question)) (st : QuizDB × Nat × Nat × Nat),
      (∀ g ∈ groups, g.2 ≠ []) →
      (groups.foldl (quizStep uid ok) st).2.1 + (groups.foldl (quizStep uid ok) st).2.2.1 =
        st.2.1 + st.2.2.1 + (List.range' st.2.2.2 groups.length).countP ok := by
  intro groups
  induction groups with
  | nil => intro st _; simp [List.range']
  | cons g rest ih =>
    intro st h
    rw [List.foldl_cons,
      ih (quizStep uid ok st g) (fun g' hg' => h g' (List.mem_cons_of_mem g hg')),
      quizStep_count uid ok st g (h g (List.mem_cons_self g rest)),
      quizStep_opIdx uid ok st g (h g (List.mem_cons_self g rest))]
    have hr : List.range' st.2.2.2 (rest.length + 1) =
        st.2.2.2 :: List.range' (st.2.2.2 + 1) rest.length := rfl
    rw [List.length_cons, hr, List.countP_cons]
    by_cases hok : ok st.2.2.2 = true <;> (simp [hok]; try omega)

theorem quizFold_presence (uid : String) (ok : Nat → Bool) :
    ∀ (groups : List (String × List Question)) (st : QuizDB × Nat × Nat × Nat)
      (j : Nat) (hj : j < groups.length),
      (∀ g ∈ groups, g.2 ≠ []) → ok (st.2.2.2 + j) = true →
      hasQuiz ((groups.foldl (quizStep uid ok) st)).1 (groups.get ⟨j, hj⟩).1 uid = true := by
  intro groups
  induction groups with
  | nil =>
    intro st j hj _ _
    exact absurd hj (Nat.not_lt_zero j)
  | cons g rest ih =>
    intro st j hj hne hok
    rw [List.foldl_cons]
    cases j with
    | zero =>
      have h0 : ok st.2.2.2 = true := by simpa using hok
      have hest := quizStep_establishes uid ok st g
        (hne g (List.mem_cons_self g rest)) h0
      exact quizFold_preserves_hasQuiz uid ok g.1 rest (quizStep uid ok st g) hest
    | succ j =>
      have hne' : ∀ g' ∈ rest, g'.2 ≠ [] :=
        fun g' hg' => hne g' (List.mem_cons_of_mem g hg')
      have hidx : (quizStep uid ok st g).2.2.2 + j = st.2.2.2 + (j + 1) := by
        rw [quizStep_opIdx uid ok st g (hne g (List.mem_cons_self g rest))]
        omega
      have hok' : ok ((quizStep uid ok st g).2.2.2 + j) = true := by
        rw [hidx]
        exact hok
      have hj' : j < rest.length := by simpa using hj
      exact ih (quizStep uid ok st g) j hj' hne' hok'

theorem quizFold_presence_all (uid : String) (groups : List (String × List Question))
    (st : QuizDB × Nat × Nat × Nat) (hne : ∀ g ∈ groups, g.2 ≠ []) :
    ∀ g ∈ groups,
      hasQuiz ((groups.foldl (quizStep uid (fun _ => true)) st)).1 g.1 uid = true := by
  intro g hg
  rcases List.get_of_mem hg with ⟨⟨j, hj⟩, rfl⟩
  exact quizFold_presence uid (fun _ => true) groups st j hj hne rfl

theorem quizFold_all_present (uid : String) :
    ∀ (groups : List (String × List Question)) (st : QuizDB × Nat × Nat × Nat),
      (∀ g ∈ groups, g.2 ≠ []) → (∀ g ∈ groups, hasQuiz st.1 g.1 uid = true) →
      (groups.foldl (quizStep uid (fun _ => true)) st).2.1 = st.2.1 ∧
      (groups.foldl (quizStep uid (fun _ => true)) st).2.2.1 = st.2.2.1 + groups.length := by
  intro groups
  induction groups with
  | nil => intro st _ _; exact ⟨rfl, by simp⟩
  | cons g rest ih =>
    intro st hne hpres
    obtain ⟨t, qs⟩ := g
    rw [List.foldl_cons]
    have hfc := quizStep_found_counts uid (fun _ => true) st t qs
      (hne (t, qs) (List.mem_cons_self (t, qs) rest)) rfl
      (hpres (t, qs) (List.mem_cons_self (t, qs) rest))
    have hner : ∀ g' ∈ rest, g'.2 ≠ [] :=
      fun g' hg' => hne g' (List.mem_cons_of_mem (t, qs) hg')
    have hprest : ∀ g' ∈ rest,
        hasQuiz (quizStep uid (fun _ => true) st (t, qs)).1 g'.1 uid = true :=
      fun g' hg' => quizStep_preserves_hasQuiz uid (fun _ => true) g'.1 st (t, qs)
        (hpres g' (List.mem_cons_of_mem (t, qs) hg'))
    obtain ⟨ha, hb⟩ := ih (quizStep uid (fun _ => true) st (t, qs)) hner hprest
    constructor
    · rw [ha, hfc.1]
    · rw [hb, hfc.2, List.length_cons]
      omega

theorem countP_bne_range'_of_lt (k : Nat) :
    ∀ (n i : Nat), k < i → (List.range' i n).countP (fun j => j != k) = n := by
  intro n
  induction n with
  | zero => intro i _; rfl
  | succ n ih =>
    intro i hk
    have hr : List.range' i (n + 1) = i :: List.range' (i + 1) n := rfl
    rw [hr, List.countP_cons, ih (i + 1) (Nat.lt_succ_of_lt hk)]
    have : (i != k) = true := by
      simp [bne_iff_ne]
      omega
    rw [this]
    simp

theorem countP_bne_range'_of_mem (k : Nat) :
    ∀ (n i : Nat), i ≤ k → k < i + n →
      (List.range' i n).countP (fun j => j != k) + 1 = n := by
  intro n
  induction n with
  | zero => intro i h1 h2; omega
  | succ n ih =>
    intro i h1 h2
    have hr : List.range' i (n + 1) = i :: List.range' (i + 1) n := rfl
    rw [hr, List.countP_cons]
    by_cases hik : i = k
    · have hb : (i != k) = false := by simp [bne_iff_ne, hik]
      rw [hb, countP_bne_range'_of_lt k n (i + 1) (by omega)]
      simp
    · have hb : (i != k) = true := by simp [bne_iff_ne, hik]
      have hih := ih (i + 1) (by omega) (by omega)
      rw [hb]
      simp
      omega

/-- C6: when the remote store rejects the write of one aggregate (here
the aggregate at position k of the grouping, whose single write is
operation k), the import still processes every other aggregate: the two
counters together total one less than the number of aggregates (the
failed aggregate increments neither), every quiz present before the run
is still present afterwards (no rollback), and every aggregate
other than the failed one is present in the store at the end.  The
embedded import is a total function, mirroring the code's `if (!error)`
check: a write error never raises an exception. -/
theorem quiz_write_failure_isolated (uid : String) (lines : List String) (db : QuizDB)
    (k : Nat) (hk : k < (buildQuizGroups (lines.drop 1)).length) :
    (parseQuizCSV uid (fun j => j != k) lines db).2.1 +
      (parseQuizCSV uid (fun j => j != k) lines db).2.2 + 1 =
      (buildQuizGroups (lines.drop 1)).length ∧
    (∀ t, hasQuiz db t uid = true →
      hasQuiz (parseQuizCSV uid (fun j => j != k) lines db).1 t uid = true) ∧
    (∀ j (hj : j < (buildQuizGroups (lines.drop 1)).length), j ≠ k →
      hasQuiz (parseQuizCSV uid (fun j => j != k) lines db).1
        ((buildQuizGroups (lines.drop 1)).get ⟨j, hj⟩).1 uid = true) := by
  have hne := buildQuizGroups_snd_ne_nil (lines.drop 1)
  refine ⟨?_, ?_, ?_⟩
  · have hc : ((buildQuizGroups (lines.drop 1)).foldl (quizStep uid (fun j => j != k))
          (db, 0, 0, 0)).2.1 +
        ((buildQuizGroups (lines.drop 1)).foldl (quizStep uid (fun j => j != k))
          (db, 0, 0, 0)).2.2.1 =
        0 + 0 + (List.range' 0 (buildQuizGroups (lines.drop 1)).length).countP
          (fun j => j != k) :=
      quizFold_count uid (fun j => j != k) (buildQuizGroups (lines.drop 1)) (db, 0, 0, 0) hne
    have hm := countP_bne_range'_of_mem k (buildQuizGroups (lines.drop 1)).length 0
      (Nat.zero_le k) (by omega)
    show ((buildQuizGroups (lines.drop 1)).foldl (quizStep uid (fun j => j != k))
        (db, 0, 0, 0)).2.1 +
      ((buildQuizGroups (lines.drop 1)).foldl (quizStep uid (fun j => j != k))
        (db, 0, 0, 0)).2.2.1 + 1 =
      (buildQuizGroups (lines.drop 1)).length
    omega
  · intro t h
    exact quizFold_preserves_hasQuiz uid (fun j => j != k) t
      (buildQuizGroups (lines.drop 1)) (db, 0, 0, 0) h
  · intro j hj hjk
    exact quizFold_presence uid (fun j => j != k)
      (buildQuizGroups (lines.drop 1)) (db, 0, 0, 0) j hj hne
      (by rw [Nat.zero_add]; exact bne_iff_ne.mpr hjk)

theorem quiz_write_failure_isolated_witness :
    0 < (buildQuizGroups ((["h", "A,x,y,g1,e1,a,b,c,d,o",
        "B,x,y,g2,e2,a,b,c,d,o"] : List String).drop 1)).length ∧
    (parseQuizCSV "u" (fun j => j != 0)
        ["h", "A,x,y,g1,e1,a,b,c,d,o", "B,x,y,g2,e2,a,b,c,d,o"] ⟨[], 0⟩).2.1 +
      (parseQuizCSV "u" (fun j => j != 0)
        ["h", "A,x,y,g1,e1,a,b,c,d,o", "B,x,y,g2,e2,a,b,c,d,o"] ⟨[], 0⟩).2.2 + 1 =
      (buildQuizGroups ((["h", "A,x,y,g1,e1,a,b,c,d,o",
        "B,x,y,g2,e2,a,b,c,d,o"] : List String).drop 1)).length :=
  ⟨by decide,
   (quiz_write_failure_isolated "u"
     ["h", "A,x,y,g1,e1,a,b,c,d,o", "B,x,y,g2,e2,a,b,c,d,o"] ⟨[], 0⟩ 0 (by decide)).1⟩

theorem countP_true_eq_length {α : Type} (l : List α) :
    l.countP (fun _ => true) = l.length := by
  induction l with
  | nil => rfl
  | cons a l ih =>
    rw [List.countP_cons]
    simp [ih]

theorem vocabFold_preserves_pair (uid : String) (ok : Nat → Bool) (e g : String)
    (rows : List String) (st : List VocabRec × Nat × Nat)
    (h : hasVocabPair st.1 e g = true) :
    hasVocabPair ((rows.foldl (vocabStep uid ok) st).1) e g = true := by
  rcases vocabFold_insert_only uid ok rows st.1 st.2.1 st.2.2 with ⟨tail, h1, _⟩
  have h1' : ((rows.foldl (vocabStep uid ok) st).1) = st.1 ++ tail := h1
  rw [h1']
  exact find?_isSome_append_left _ _ _ h

theorem vocabFold_presence_all (uid : String) :
    ∀ (rows : List String) (st : List VocabRec × Nat × Nat),
      ∀ line ∈ rows, ∀ ent, vocabEntry? uid line = some ent →
        vocabConstraintOk ent = true →
        hasVocabPair ((rows.foldl (vocabStep uid (fun _ => true)) st).1)
          ent.english_word ent.gujarati_word = true := by
  intro rows
  induction rows with
  | nil => intro st line hline; exact absurd hline (List.not_mem_nil line)
  | cons line' rest ih =>
    intro st line hline ent hent hcon
    rw [List.foldl_cons]
    rcases List.mem_cons.mp hline with heq | hmem
    · subst heq
      have hpres : hasVocabPair ((vocabStep uid (fun _ => true) st line).1)
          ent.english_word ent.gujarati_word = true := by
        obtain ⟨db, c, i⟩ := st
        rcases hF : findVocab db ent.english_word ent.gujarati_word with _ | r0
        · have hstep : vocabStep uid (fun _ => true) (db, c, i) line =
              (db ++ [ent], c + 1, i + 1) := by
            simp [vocabStep, hent, hF, hcon]
          rw [hstep]
          exact find?_isSome_append_right _ _ _ (by simp)
        · have hstep : vocabStep uid (fun _ => true) (db, c, i) line = (db, c, i) := by
            simp [vocabStep, hent, hF]
          rw [hstep]
          unfold hasVocabPair findVocab
          unfold findVocab at hF
          rw [hF]
          rfl
      exact vocabFold_preserves_pair uid (fun _ => true) ent.english_word
        ent.gujarati_word rest (vocabStep uid (fun _ => true) st line) hpres
    · exact ih (vocabStep uid (fun _ => true) st line') line hmem ent hent hcon

theorem vocabFold_no_insert (uid : String) :
    ∀ (rows : List String) (st : List VocabRec × Nat × Nat),
      (∀ line ∈ rows, ∀ ent, vocabEntry? uid line = some ent →
        hasVocabPair st.1 ent.english_word ent.gujarati_word = true ∨
          vocabConstraintOk ent = false) →
      (rows.foldl (vocabStep uid (fun _ => true)) st).1 = st.1 ∧
      (rows.foldl (vocabStep uid (fun _ => true)) st).2.1 = st.2.1 := by
  intro rows
  induction rows with
  | nil => intro st _; exact ⟨rfl, rfl⟩
  | cons line rest ih =>
    intro st h
    rw [List.foldl_cons]
    obtain ⟨db, c, i⟩ := st
    have hstep : (vocabStep uid (fun _ => true) (db, c, i) line).1 = db ∧
        (vocabStep uid (fun _ => true) (db, c, i) line).2.1 = c := by
      rcases hE : vocabEntry? uid line with _ | ent
      · simp [vocabStep, hE]
      · rcases h line (List.mem_cons_self line rest) ent hE with hp | hc
        · have hp' : (findVocab db ent.english_word ent.gujarati_word).isSome = true := hp
          rcases hF : findVocab db ent.english_word ent.gujarati_word with _ | r0
          · rw [hF] at hp'
            exact absurd hp' (by simp)
          · simp [vocabStep, hE, hF]
        · rcases hF : findVocab db ent.english_word ent.gujarati_word with _ | r0
          · simp [vocabStep, hE, hF, hc]
          · simp [vocabStep, hE, hF]
    have heta : vocabStep uid (fun _ => true) (db, c, i) line =
        ((vocabStep uid (fun _ => true) (db, c, i) line).1,
         (vocabStep uid (fun _ => true) (db, c, i) line).2.1,
         (vocabStep uid (fun _ => true) (db, c, i) line).2.2) := rfl
    rw [heta, hstep.1, hstep.2]
    exact ih (db, c, (vocabStep uid (fun _ => true) (db, c, i) line).2.2)
      (fun l hl ent hent => h l (List.mem_cons_of_mem line hl) ent hent)

theorem dialogueFold_count (uid : String) :
    ∀ (groups : List (String × List DialogueTurn)) (st : List DialogueRec × Nat × Nat),
      (∀ g ∈ groups, g.2 ≠ []) →
      (groups.foldl (dialogueStep uid (fun _ => true)) st).2.1 =
        st.2.1 + groups.length := by
  intro groups
  induction groups with
  | nil => intro st _; simp
  | cons g rest ih =>
    intro st h
    obtain ⟨t, dd⟩ := g
    have hq : ¬ dd.length = 0 :=
      fun hz => (h (t, dd) (List.mem_cons_self (t, dd) rest)) (List.length_eq_zero.mp hz)
    rw [List.foldl_cons]
    have hstep : dialogueStep uid (fun _ => true) st (t, dd) =
        (st.1 ++ [newDialogueRec uid t dd], st.2.1 + 1, st.2.2 + 1) := by
      obtain ⟨db, c, i⟩ := st
      simp [dialogueStep, hq]
    rw [hstep, ih (st.1 ++ [newDialogueRec uid t dd], st.2.1 + 1, st.2.2 + 1)
      (fun g' hg' => h g' (List.mem_cons_of_mem (t, dd) hg'))]
    simp [List.length_cons]
    omega

/-- C1 (amended): re-running the same import on an unchanged CSV against
the store state left by a fully successful first run behaves as an
idempotent upsert only for the quiz kind: the second quiz run creates 0
and updates exactly the aggregates the first run persisted (c1 + u1).
The vocabulary kind creates nothing on the second run but never
increments updatedCount (it is 0 by construction).  The dialogue kind is
not idempotent: the second run inserts every aggregate again
(createdCount equals the first run's) and updates nothing. -/
theorem reimport_second_run_counts (uid csvText : String) (st : Stores) :
    (∀ st1 st2 c1 u1 c2 u2,
      parseCSVAndCreateContent .quiz uid (fun _ => true) csvText st =
        (st1, Except.ok (c1, u1)) →
      parseCSVAndCreateContent .quiz uid (fun _ => true) csvText st1 =
        (st2, Except.ok (c2, u2)) →
      c2 = 0 ∧ u2 = c1 + u1) ∧
    (∀ st1 st2 c1 u1 c2 u2,
      parseCSVAndCreateContent .vocabulary uid (fun _ => true) csvText st =
        (st1, Except.ok (c1, u1)) →
      parseCSVAndCreateContent .vocabulary uid (fun _ => true) csvText st1 =
        (st2, Except.ok (c2, u2)) →
      c2 = 0 ∧ u2 = 0) ∧
    (∀ st1 st2 c1 u1 c2 u2,
      parseCSVAndCreateContent .dialogue uid (fun _ => true) csvText st =
        (st1, Except.ok (c1, u1)) →
      parseCSVAndCreateContent .dialogue uid (fun _ => true) csvText st1 =
        (st2, Except.ok (c2, u2)) →
      c2 = c1 ∧ u2 = 0) := by
  by_cases hlen : (jsSplit (jsTrim csvText) '\n').length < 2
  · have hshort : ∀ (ut : UploadType) (s : Stores),
        parseCSVAndCreateContent ut uid (fun _ => true) csvText s =
          (s, Except.error headerDataError) := by
      intro ut s
      unfold parseCSVAndCreateContent
      rw [if_pos hlen]
    refine ⟨?_, ?_, ?_⟩ <;>
      · intro st1 st2 c1 u1 c2 u2 h1 _
        rw [hshort] at h1
        exact absurd (congrArg Prod.snd h1) (by simp)
  · refine ⟨?_, ?_, ?_⟩
    · intro st1 st2 c1 u1 c2 u2 h1 h2
      rw [parseContent_success_quiz uid (fun _ => true) csvText st hlen] at h1
      rw [parseContent_success_quiz uid (fun _ => true) csvText st1 hlen] at h2
      injection h1 with h1a h1b
      injection h2 with h2a h2b
      injection h1b with h1c
      injection h2b with h2c
      injection h1c with hc1 hu1
      injection h2c with hc2 hu2
      have hq1 : st1.quizzes =
          (parseQuizCSV uid (fun _ => true) (jsSplit (jsTrim csvText) '\n') st.quizzes).1 := by
        rw [← h1a]
      rw [hq1] at hc2 hu2
      have hne := buildQuizGroups_snd_ne_nil ((jsSplit (jsTrim csvText) '\n').drop 1)
      have hpres : ∀ g ∈ buildQuizGroups ((jsSplit (jsTrim csvText) '\n').drop 1),
          hasQuiz (parseQuizCSV uid (fun _ => true) (jsSplit (jsTrim csvText) '\n')
            st.quizzes).1 g.1 uid = true :=
        quizFold_presence_all uid _ (st.quizzes, 0, 0, 0) hne
      have hrun2 : (parseQuizCSV uid (fun _ => true) (jsSplit (jsTrim csvText) '\n')
            (parseQuizCSV uid (fun _ => true) (jsSplit (jsTrim csvText) '\n')
              st.quizzes).1).2.1 = 0 ∧
          (parseQuizCSV uid (fun _ => true) (jsSplit (jsTrim csvText) '\n')
            (parseQuizCSV uid (fun _ => true) (jsSplit (jsTrim csvText) '\n')
              st.quizzes).1).2.2 =
          0 + (buildQuizGroups ((jsSplit (jsTrim csvText) '\n').drop 1)).length :=
        quizFold_all_present uid _ (_, 0, 0, 0) hne hpres
      have hrun1 : (parseQuizCSV uid (fun _ => true) (jsSplit (jsTrim csvText) '\n')
            st.quizzes).2.1 +
          (parseQuizCSV uid (fun _ => true) (jsSplit (jsTrim csvText) '\n')
            st.quizzes).2.2 =
          0 + 0 + (List.range' 0 (buildQuizGroups
            ((jsSplit (jsTrim csvText) '\n').drop 1)).length).countP (fun _ => true) :=
        quizFold_count uid (fun _ => true) _ (st.quizzes, 0, 0, 0) hne
      have hcp : (List.range' 0 (buildQuizGroups
            ((jsSplit (jsTrim csvText) '\n').drop 1)).length).countP (fun _ => true) =
          (buildQuizGroups ((jsSplit (jsTrim csvText) '\n').drop 1)).length := by
        rw [countP_true_eq_length, List.length_range']
      obtain ⟨hr2a, hr2b⟩ := hrun2
      constructor
      · omega
      · omega
    · intro st1 st2 c1 u1 c2 u2 h1 h2
      rw [parseContent_success_vocab uid (fun _ => true) csvText st hlen] at h1
      rw [parseContent_success_vocab uid (fun _ => true) csvText st1 hlen] at h2
      injection h1 with h1a h1b
      injection h2 with h2a h2b
      injection h1b with h1c
      injection h2b with h2c
      injection h1c with hc1 hu1
      injection h2c with hc2 hu2
      have hv1 : st1.vocab =
          (parseVocabularyCSV uid (fun _ => true) (jsSplit (jsTrim csvText) '\n')
            st.vocab).1 := by
        rw [← h1a]
      rw [hv1] at hc2
      have hhyp : ∀ line ∈ (jsSplit (jsTrim csvText) '\n').drop 1, ∀ ent,
          vocabEntry? uid line = some ent →
          hasVocabPair (parseVocabularyCSV uid (fun _ => true)
              (jsSplit (jsTrim csvText) '\n') st.vocab).1
            ent.english_word ent.gujarati_word = true ∨
            vocabConstraintOk ent = false := by
        intro line hl ent hent
        by_cases hcon : vocabConstraintOk ent = true
        · exact Or.inl (vocabFold_presence_all uid
            ((jsSplit (jsTrim csvText) '\n').drop 1) (st.vocab, 0, 0) line hl ent hent hcon)
        · exact Or.inr (Bool.eq_false_iff.mpr hcon)
      have hni : (parseVocabularyCSV uid (fun _ => true) (jsSplit (jsTrim csvText) '\n')
            (parseVocabularyCSV uid (fun _ => true) (jsSplit (jsTrim csvText) '\n')
              st.vocab).1).2 = 0 :=
        (vocabFold_no_insert uid ((jsSplit (jsTrim csvText) '\n').drop 1)
          ((parseVocabularyCSV uid (fun _ => true) (jsSplit (jsTrim csvText) '\n')
            st.vocab).1, 0, 0) hhyp).2
      constructor
      · omega
      · omega
    · intro st1 st2 c1 u1 c2 u2 h1 h2
      rw [parseContent_success_dialogue uid (fun _ => true) csvText st hlen] at h1
      rw [parseContent_success_dialogue uid (fun _ => true) csvText st1 hlen] at h2
      injection h1 with h1a h1b
      injection h2 with h2a h2b
      injection h1b with h1c
      injection h2b with h2c
      injection h1c with hc1 hu1
      injection h2c with hc2 hu2
      have hd1 : st1.dialogues =
          (parseDialogueCSV uid (fun _ => true) (jsSplit (jsTrim csvText) '\n')
            st.dialogues).1 := by
        rw [← h1a]
      rw [hd1] at hc2
      have hne := buildDialogueGroups_snd_ne_nil ((jsSplit (jsTrim csvText) '\n').drop 1)
      have hcnt1 : (parseDialogueCSV uid (fun _ => true) (jsSplit (jsTrim csvText) '\n')
            st.dialogues).2 =
          0 + (buildDialogueGroups ((jsSplit (jsTrim csvText) '\n').drop 1)).length :=
        dialogueFold_count uid _ (st.dialogues, 0, 0) hne
      have hcnt2 : (parseDialogueCSV uid (fun _ => true) (jsSplit (jsTrim csvText) '\n')
            (parseDialogueCSV uid (fun _ => true) (jsSplit (jsTrim csvText) '\n')
              st.dialogues).1).2 =
          0 + (buildDialogueGroups ((jsSplit (jsTrim csvText) '\n').drop 1)).length :=
        dialogueFold_count uid _ ((parseDialogueCSV uid (fun _ => true)
          (jsSplit (jsTrim csvText) '\n') st.dialogues).1, 0, 0) hne
      constructor
      · omega
      · omega

/-- C1 (counterexample): the claim fails on the code.  A vocabulary run
persists one aggregate on the first pass, yet the second run's
updatedCount is 0, not incremented; a dialogue import's second run has
createdCount 1, not 0 (dialogues are re-inserted, never upserted). -/
theorem dialogue_reimport_not_idempotent_cex :
    (parseCSVAndCreateContent .vocabulary "u" (fun _ => true) "h\na,b,c"
      emptyStores).2 = Except.ok (1, 0) ∧
    (parseCSVAndCreateContent .vocabulary "u" (fun _ => true) "h\na,b,c"
      (parseCSVAndCreateContent .vocabulary "u" (fun _ => true) "h\na,b,c"
        emptyStores).1).2 = Except.ok (0, 0) ∧
    (parseCSVAndCreateContent .dialogue "u" (fun _ => true) "h\nT,S,hi,he,tr"
      emptyStores).2 = Except.ok (1, 0) ∧
    (parseCSVAndCreateContent .dialogue "u" (fun _ => true) "h\nT,S,hi,he,tr"
      (parseCSVAndCreateContent .dialogue "u" (fun _ => true) "h\nT,S,hi,he,tr"
        emptyStores).1).2 = Except.ok (1, 0) ∧
    (1 : Nat) ≠ 0 :=
  ⟨rfl, rfl, rfl, rfl, by decide⟩

theorem reimport_second_run_counts_witness :
    ((0 : Nat) = 0 ∧ (1 : Nat) = 1 + 0) ∧
    ((0 : Nat) = 0 ∧ (0 : Nat) = 0) ∧
    ((1 : Nat) = 1 ∧ (0 : Nat) = 0) :=
  ⟨(reimport_second_run_counts "u" "h\nT,x,y,g,e,a,b,c,d,o" emptyStores).1
      (Stores.mk ⟨[⟨0, "T", "T - Imported from CSV with 1 questions", "game", 2, 15,
          [⟨"g / e", "g", ["a", "b", "c", "d"], "o", ""⟩], "u"⟩], 1⟩ [] [])
      (Stores.mk ⟨[⟨0, "T", "Updated T - Imported from CSV with 1 questions", "game", 2, 15,
          [⟨"g / e", "g", ["a", "b", "c", "d"], "o", ""⟩], "u"⟩], 1⟩ [] [])
      1 0 0 1 rfl rfl,
   (reimport_second_run_counts "u" "h\na,b,c" emptyStores).2.1
      (Stores.mk ⟨[], 0⟩ [⟨"a", "b", "c", 1, "u"⟩] [])
      (Stores.mk ⟨[], 0⟩ [⟨"a", "b", "c", 1, "u"⟩] [])
      1 0 0 0 rfl rfl,
   (reimport_second_run_counts "u" "h\nT,S,hi,he,tr" emptyStores).2.2
      (Stores.mk ⟨[], 0⟩ []
        [⟨"T", "T - Imported from CSV with 1 steps", "Imported conversation",
          [⟨"S", "hi", "he", "tr"⟩], 2, "u"⟩])
      (Stores.mk ⟨[], 0⟩ []
        [⟨"T", "T - Imported from CSV with 1 steps", "Imported conversation",
          [⟨"S", "hi", "he", "tr"⟩], 2, "u"⟩,
         ⟨"T", "T - Imported from CSV with 1 steps", "Imported conversation",
          [⟨"S", "hi", "he", "tr"⟩], 2, "u"⟩])
      1 0 1 0 rfl rfl⟩
